import Mathlib

/-!
Verification of the socket-server trade ingestion, normalization and
broadcast core (`src/server.ts` in its two concatenated variants, and the
`unnamed/part_000` variant) against its natural-language specification.

The repository contains:
* a capacity-30 variant: live Swap listener, per-IP 5-second debounce on
  socket connections, backfill that replaces the buffer;
* a capacity-100 variant: live Swap listener, external transaction stream,
  file persistence, backfill that merges into the buffer.

Machine numbers: on-chain amounts are `uint256` values handled in the
source via `ethers.toBigInt`, modelled as `Nat`.  The scaling step
`parseFloat(ethers.formatUnits(raw, d))` is modelled exactly as the
rational `raw / 10 ^ d`: for every `raw > 0` and `d ≤ 18` the decimal
string printed by `formatUnits` parses to a strictly positive double
(the value is at least `10 ^ (-18)`, far above the smallest positive
double), and for `raw = 0` it parses to `0`, so zero-testing and
positivity of the modelled rational agree with the code's float.
-/

namespace SocketServer

/-- Canonical trade record.  Field set follows the capacity-100 variant's
`Trade` type (a superset of the capacity-30 variant's, which lacks
`source`/`ticker`/`image`; those paths fill the extra fields with the
constants the code assigns, or `""` where the variant has no such field). -/
structure Trade where
  hash : String
  time : String
  buyer : String
  seller : String
  amount : ℚ
  bnbAmount : ℚ
  action : String
  source : String
  ticker : String
  image : String
  deriving DecidableEq, Repr, Inhabited

/-- `parseFloat(ethers.formatUnits(raw, dec))`: scale a raw integer chain
amount by `10 ^ dec`.  Modelled exactly in `ℚ` (see file header). -/
def formatUnits (raw : ℕ) (dec : ℕ) : ℚ :=
  (raw : ℚ) / 10 ^ dec

/-- The positional payload of one raw `Swap` event as delivered to the
listener callback: `(sender, amount0In, amount1In, amount0Out, amount1Out,
to, event)`, with the transaction hash taken from
`event?.log?.transactionHash` (absent when the event carries no log). -/
structure RawSwap where
  sender : String
  amount0In : ℕ
  amount1In : ℕ
  amount0Out : ℕ
  amount1Out : ℕ
  toAddr : String   -- the source's `to` parameter (`to` is reserved in Lean)
  txHash : Option String
  deriving DecidableEq, Repr

/-- The direction-classification block of `attachSwapListener`'s callback:
produces `(ocicatRaw, bnbRaw, action)` or rejects (the early `return`). -/
def classifySwap (r : RawSwap) : Option (ℕ × ℕ × String) :=
  if 0 < r.amount1Out then
    some (r.amount1Out, r.amount0In, "buy")
  else if 0 < r.amount1In then
    some (r.amount1In, r.amount0Out, "sell")
  else
    none

/-- Full decode path of `attachSwapListener`'s callback: classify, scale
(6 decimals for the token leg, 18 for the BNB leg), skip the trade when
either scaled amount is zero, otherwise build the `Trade` record.
Rejection is the `none` value — the callback returns without emitting and
never throws.  `now` stands for `new Date().toISOString()`. -/
def decodeSwap (now : String) (r : RawSwap) : Option Trade :=
  match classifySwap r with
  | none => none
  | some (ocicatRaw, bnbRaw, action) =>
    let ocicatAmount := formatUnits ocicatRaw 6
    let bnbAmount := formatUnits bnbRaw 18
    if ocicatAmount = 0 ∨ bnbAmount = 0 then none
    else some {
      hash := r.txHash.getD "unknown"
      time := now
      buyer := r.sender
      seller := r.toAddr
      amount := ocicatAmount
      bnbAmount := bnbAmount
      action := action
      source := "ocicat"
      ticker := ""
      image := "" }

/-- `tradeBuffer.unshift(trade); if (tradeBuffer.length > cap) tradeBuffer =
tradeBuffer.slice(0, cap)` — the buffer update shared by both variants'
`emitNewTrade` (cap 30 and cap 100) and the external-stream handler. -/
def unshiftTrunc (cap : ℕ) (trade : Trade) (buf : List Trade) : List Trade :=
  let buf' := trade :: buf
  if cap < buf'.length then buf'.take cap else buf'

/-- `emitNewTrade` of the capacity-30 variant: prepend and truncate to 30
(the socket broadcast itself is modelled in the broadcaster section). -/
def emitNewTrade (trade : Trade) (buf : List Trade) : List Trade :=
  unshiftTrunc 30 trade buf

/-- `emitNewTrade` of the capacity-100 variant: overwrite
`source`/`ticker`/`image` with the Ocicat constants, prepend, truncate
to 100. -/
def emitNewTradeV2 (trade : Trade) (buf : List Trade) : List Trade :=
  unshiftTrunc 100
    { trade with source := "ocicat", ticker := "OCICAT", image := "/cat_bg.jpg" } buf

/-- `tokenDetails` of an external-stream transaction. -/
structure TokenDetails where
  ticker : Option String
  image : Option String
  deriving DecidableEq, Repr

/-- Payload of one `transactions:new` message from the external stream;
every field may be absent (the handler defaults each one). -/
structure ExternalTx where
  hash : Option String
  wallet : Option String
  amountInToken : Option ℚ
  amountInChainCurrency : Option ℚ
  type : Option String
  tokenDetails : Option TokenDetails
  deriving DecidableEq, Repr

/-- Normalization performed by the `transactions:new` handler: every
missing field is defaulted (`wallet → "unknown"`, amounts → `0`,
`type → "buy"`, ticker/image → fixed fallbacks).  Note: no amount check of
any kind — the handler is total. -/
def normalizeExternal (tx : ExternalTx) (now : String) : Trade where
  hash := tx.hash.getD "unknown"
  time := now
  buyer := tx.wallet.getD "unknown"
  seller := ""
  amount := tx.amountInToken.getD 0
  bnbAmount := tx.amountInChainCurrency.getD 0
  action := tx.type.getD "buy"
  source := "external"
  ticker := (tx.tokenDetails.bind TokenDetails.ticker).getD "Unknown"
  image := (tx.tokenDetails.bind TokenDetails.image).getD "/default_token.png"

/-- Effect of one `transactions:new` message on the trade buffer:
normalize, `unshift`, truncate to 100. -/
def externalNew (tx : ExternalTx) (now : String) (buf : List Trade) : List Trade :=
  unshiftTrunc 100 (normalizeExternal tx now) buf

/-- Effect of one raw `Swap` event on the capacity-30 buffer: decode, and
insert via `emitNewTrade` when accepted. -/
def liveSwap (now : String) (r : RawSwap) (buf : List Trade) : List Trade :=
  match decodeSwap now r with
  | none => buf
  | some t => emitNewTrade t buf

/-- Effect of one raw `Swap` event on the capacity-100 buffer. -/
def liveSwapV2 (now : String) (r : RawSwap) (buf : List Trade) : List Trade :=
  match decodeSwap now r with
  | none => buf
  | some t => emitNewTradeV2 t buf

/-! ### Backfill (`fetchInitialTrades`) -/

/-- One log returned by the `getLogs` historical query, already decoded
through `iface.decodeEventLog("Swap", ...)`: block position plus the five
event fields the mapper reads. -/
structure SwapLog where
  blockNumber : ℕ
  transactionIndex : ℕ
  transactionHash : String
  sender : String
  amount0In : ℕ
  amount1In : ℕ
  amount0Out : ℕ
  amount1Out : ℕ
  toAddr : String
  deriving DecidableEq, Repr

/-- The raw event carried by a historical log — what the live listener
would have been handed for the same swap. -/
def rawOfLog (log : SwapLog) : RawSwap :=
  { sender := log.sender, amount0In := log.amount0In, amount1In := log.amount1In
    amount0Out := log.amount0Out, amount1Out := log.amount1Out
    toAddr := log.toAddr, txHash := some log.transactionHash }

/-- The comparator passed to `logs.sort`: block number descending, then
transaction index descending. -/
def logDescLE (a b : SwapLog) : Bool :=
  if a.blockNumber ≠ b.blockNumber then b.blockNumber ≤ a.blockNumber
  else b.transactionIndex ≤ a.transactionIndex

/-- `logs.sort((a, b) => ...)` with the descending comparator; modelled as
a stable merge sort (modern JS engines' `Array.prototype.sort` is stable). -/
def sortLogsDesc (logs : List SwapLog) : List SwapLog :=
  logs.mergeSort logDescLE

/-- `fromBlock = currentBlock - 500`: the lower edge of the bounded
backfill window. -/
def backfillFromBlock (currentBlock : ℕ) : ℕ :=
  currentBlock - 500

/-- The backfill mapper applied to one sorted log (both variants map the
same fields): token amount always from `amount1Out` at 6 decimals, base
amount always from `amount0In` at 18 decimals, action `"buy"` iff
`amount1Out > 0`.  No zero-amount rejection and no reuse of the live
decoder.  The capacity-100 variant's mapper also sets `source: "ocicat"`;
the other fields it lacks are filled with `""` as elsewhere. -/
def decodeBackfillLog (now : String) (log : SwapLog) : Trade where
  hash := log.transactionHash
  time := now
  buyer := log.sender
  seller := log.toAddr
  amount := formatUnits log.amount1Out 6
  bnbAmount := formatUnits log.amount0In 18
  action := if 0 < log.amount1Out then "buy" else "sell"
  source := "ocicat"
  ticker := ""
  image := ""

/-- `fetchInitialTrades` of the capacity-30 variants (`server.ts` first
part and `unnamed/part_000`): on query success, sort the logs descending,
take the first 30, map them, and *replace* the buffer; on any error the
`catch` leaves the buffer unchanged.  `queryResult` is the outcome of the
`getBlockNumber`/`getLogs` round trip against the collaborator RPC node. -/
def fetchInitialTrades (queryResult : Except Unit (List SwapLog)) (now : String)
    (buf : List Trade) : List Trade :=
  match queryResult with
  | .error _ => buf
  | .ok logs => ((sortLogsDesc logs).take 30).map (decodeBackfillLog now)

/-- `fetchInitialTrades` of the capacity-100 variant.  Its mapper callback
evaluates `initialTrades.length` inside the initializer of
`const initialTrades` itself; whenever at least one log is mapped, the
first callback therefore throws a `ReferenceError` (temporal-dead-zone
access), the surrounding `catch` swallows it, and the buffer is left
unchanged.  Only with zero logs does the merge
`[...initialTrades, ...tradeBuffer].slice(0, 100)` execute, degenerating
to a truncation of the existing buffer. -/
def fetchInitialTradesV2 (queryResult : Except Unit (List SwapLog)) (now : String)
    (buf : List Trade) : List Trade :=
  match queryResult with
  | .error _ => buf
  | .ok logs =>
    let initialLogs := (sortLogsDesc logs).take 30
    if initialLogs.isEmpty then
      ((initialLogs.map (decodeBackfillLog now)) ++ buf).take 100
    else buf

/-- The merge the capacity-100 variant's final statement
`tradeBuffer = [...initialTrades, ...tradeBuffer].slice(0, 100)` expresses,
i.e. the behaviour of `fetchInitialTradesV2` had its mapper not thrown:
prepend the at-most-30 decoded logs, keep the old entries behind them,
truncate to 100. -/
def fetchInitialTradesV2Intended (queryResult : Except Unit (List SwapLog)) (now : String)
    (buf : List Trade) : List Trade :=
  match queryResult with
  | .error _ => buf
  | .ok logs =>
    (((sortLogsDesc logs).take 30).map (decodeBackfillLog now) ++ buf).take 100

/-! ### Subscriber registry (per-IP debounce) -/

/-- One socket-connection attempt: the requesting origin and
`Date.now()` at the moment the handler runs. -/
structure AttachEvent where
  ip : String
  time : ℕ
  deriving DecidableEq, Repr

/-- The debounce check and registry update at the top of the capacity-30
variant's `io.on("connection")` handler:
`if (now - (clientLastRequest[ip] || 0) < 5000) { socket.disconnect(true); return; }
clientLastRequest[ip] = now;`
Returns `(accepted?, updated registry)`; a rejected attempt leaves the
registry untouched.  The registry is total with default `0`, mirroring
`|| 0`.  JS computes `now - last` as a possibly negative number, which is
`< 5000` exactly when the truncated `ℕ` subtraction is. -/
def processAttach (reg : String → ℕ) (ip : String) (now : ℕ) : Bool × (String → ℕ) :=
  if now - reg ip < 5000 then (false, reg)
  else (true, fun j => if j = ip then now else reg j)

/-- Initial (empty) registry: `const clientLastRequest = {}`. -/
def reg0 : String → ℕ := fun _ => 0

/-- Registry state after a sequence of connection attempts. -/
def runReg (reg : String → ℕ) : List AttachEvent → (String → ℕ)
  | [] => reg
  | e :: es => runReg (processAttach reg e.ip e.time).2 es

/-- The subsequence of attempts the handler accepted. -/
def acceptedIn (reg : String → ℕ) : List AttachEvent → List AttachEvent
  | [] => []
  | e :: es =>
    let step := processAttach reg e.ip e.time
    (if step.1 then [e] else []) ++ acceptedIn step.2 es

/-! ### Upstream websocket reconnect -/

/-- Reconnect delay passed to `setTimeout` in the `"close"` handler. -/
def reconnectDelayMs : ℕ := 3000

/-- State of the upstream-subscription plumbing.  Connections are numbered
by creation order (`currentGen` is the one the module-level `provider`
variable holds); `closeHandlerGens` lists the generations whose websocket
has a `"close"` handler registered, and `reconnects` counts executed
reconnections. -/
structure UpstreamState where
  currentGen : ℕ
  closeHandlerGens : List ℕ
  reconnects : ℕ
  deriving DecidableEq, Repr

/-- Startup: connection 0 is constructed, `attachSwapListener` is called on
it, and `provider.websocket.on("close", ...)` registers the close handler
on connection 0's websocket. -/
def upstreamInit : UpstreamState :=
  { currentGen := 0, closeHandlerGens := [0], reconnects := 0 }

/-- Effect of the websocket of generation `g` closing.  Only generations in
`closeHandlerGens` react: the `setTimeout` callback constructs a fresh
provider and contract and calls `attachSwapListener` on the new contract —
but registers no `"close"` handler on the new websocket, so
`closeHandlerGens` is unchanged.  A close of any other generation's
websocket triggers nothing. -/
def upstreamClose (s : UpstreamState) (g : ℕ) : UpstreamState :=
  if g ∈ s.closeHandlerGens then
    { currentGen := s.currentGen + 1
      closeHandlerGens := s.closeHandlerGens
      reconnects := s.reconnects + 1 }
  else s

/-- State after a sequence of close notifications. -/
def upstreamRun (closes : List ℕ) : UpstreamState :=
  closes.foldl upstreamClose upstreamInit

/-! ### Broadcaster / subscriber fan-out (capacity-30 variant)

The `io.on("connection")` handler of the capacity-30 variant is `async`:
after the debounce check it runs `if (tradeBuffer.length === 0) await
fetchInitialTrades();` and only then `socket.emit("trades", tradeBuffer)`.
The socket is already connected (and so reached by every `io.emit`) while
the handler runs.  When the buffer is non-empty the handler performs no
`await`, so accept-and-snapshot is one atomic step of the event loop; when
the buffer is empty, other events (in particular live publishes) can run
between acceptance and the snapshot emit.  The model below makes that
suspension point explicit: an accepted attach with an empty buffer leaves
the socket in a `pending` state, and a separate `finishAttach` event
resumes the handler (applying the awaited `fetchInitialTrades` outcome and
emitting the snapshot). -/

/-- A message delivered to one subscriber socket. -/
inductive Msg where
  | snapshot (h : List Trade)
  | live (t : Trade)
  deriving DecidableEq, Repr

/-- One attached subscriber socket.  `pending` marks a handler suspended at
the backfill `await`; `atomic` is ghost state recording that the attach
completed without suspending (buffer non-empty at attach). -/
structure Socket where
  sid : ℕ
  ip : String
  log : List Msg
  pending : Bool
  atomic : Bool
  deriving DecidableEq, Repr

/-- Global server state: trade buffer, debounce registry, attached sockets. -/
structure SysState where
  buffer : List Trade
  reg : String → ℕ
  socks : List Socket

/-- Events of the interleaved event loop. -/
inductive Ev where
  /-- a new socket connection from `ip` at time `time` -/
  | attach (sid : ℕ) (ip : String) (time : ℕ)
  /-- the awaited `fetchInitialTrades` of socket `sid`'s handler returns
  with outcome `res`, and the handler resumes at the snapshot emit -/
  | finishAttach (sid : ℕ) (res : Except Unit (List SwapLog)) (now : String)
  /-- a decoded live trade is inserted and broadcast (`emitNewTrade`) -/
  | publish (t : Trade)
  /-- socket `sid` disconnects -/
  | detach (sid : ℕ)

/-- One step of the event loop. -/
def sysStep (s : SysState) : Ev → SysState
  | .attach sid ip time =>
    let step := processAttach s.reg ip time
    if step.1 then
      if s.buffer.isEmpty then
        -- handler suspends at `await fetchInitialTrades()`; the socket is
        -- connected and receives broadcasts, but has no snapshot yet
        { buffer := s.buffer, reg := step.2
          socks := ⟨sid, ip, [], true, false⟩ :: s.socks }
      else
        -- no await: acceptance and snapshot emit are one atomic step
        { buffer := s.buffer, reg := step.2
          socks := ⟨sid, ip, [Msg.snapshot s.buffer], false, true⟩ :: s.socks }
    else
      -- rejected: disconnected immediately, receives nothing, no socket kept
      { buffer := s.buffer, reg := step.2, socks := s.socks }
  | .finishAttach sid res now =>
    let buf' := fetchInitialTrades res now s.buffer
    { buffer := buf'
      reg := s.reg
      socks := s.socks.map fun sk =>
        if sk.sid = sid ∧ sk.pending then
          { sk with log := sk.log ++ [Msg.snapshot buf'], pending := false }
        else sk }
  | .publish t =>
    { buffer := emitNewTrade t s.buffer
      reg := s.reg
      socks := s.socks.map fun sk => { sk with log := sk.log ++ [Msg.live t] } }
  | .detach sid =>
    { buffer := s.buffer, reg := s.reg
      socks := s.socks.filter fun sk => sk.sid ≠ sid }

/-- Server start: empty buffer, empty registry, no subscribers. -/
def sysInit : SysState :=
  { buffer := [], reg := reg0, socks := [] }

/-- State after a sequence of event-loop steps. -/
def sysRun (evs : List Ev) : SysState :=
  evs.foldl sysStep sysInit

/-- Number of snapshot messages a socket has received. -/
def snapCount (log : List Msg) : ℕ :=
  (log.filter fun m => match m with | .snapshot _ => true | .live _ => false).length

/-! ## Helper lemmas -/

/-- A trade decoded from a `Swap` event used in witnesses: a buy of
5 raw token units against 7 raw wei. -/
def sampleRawSwap : RawSwap :=
  { sender := "0xsender", amount0In := 7, amount1In := 0, amount0Out := 0
    amount1Out := 5, toAddr := "0xto", txHash := some "0xhash" }

/-- A concrete trade used in witnesses and counterexamples. -/
def sampleTrade : Trade :=
  { hash := "0x1", time := "2024-01-01T00:00:00.000Z", buyer := "0xb", seller := "0xs"
    amount := 1, bnbAmount := 2, action := "buy", source := "ocicat"
    ticker := "", image := "" }

theorem unshiftTrunc_succ (cap : ℕ) (t : Trade) (buf : List Trade) :
    unshiftTrunc (cap + 1) t buf = t :: buf.take cap := by
  unfold unshiftTrunc
  simp only [List.length_cons]
  by_cases h : cap + 1 < buf.length + 1
  · simp only [if_pos h, List.take_succ_cons]
  · simp only [if_neg h]
    rw [List.take_of_length_le]
    omega

theorem length_unshiftTrunc_le (cap : ℕ) (t : Trade) (buf : List Trade) :
    (unshiftTrunc cap t buf).length ≤ cap := by
  unfold unshiftTrunc
  simp only [List.length_cons]
  by_cases h : cap < buf.length + 1
  · simp [if_pos h, List.length_take]
  · simp only [if_neg h, List.length_cons]
    omega

theorem formatUnits_pos {raw : ℕ} (dec : ℕ) (h : raw ≠ 0) :
    0 < formatUnits raw dec := by
  unfold formatUnits
  have hr : 0 < (raw : ℚ) := by exact_mod_cast Nat.pos_of_ne_zero h
  exact div_pos hr (by positivity)

theorem formatUnits_nonneg (raw dec : ℕ) : 0 ≤ formatUnits raw dec := by
  unfold formatUnits
  positivity

theorem length_backfill_le_30 (logs : List SwapLog) (now : String) (buf : List Trade) :
    (fetchInitialTrades (Except.ok logs) now buf).length ≤ 30 := by
  unfold fetchInitialTrades
  simp only [List.length_map, List.length_take]
  omega

/-! ## Claim C6 -/

/-- C6: `insert(trade)` prepends the trade at the front of the history and
truncates at the tail to capacity, never reordering the existing entries:
in both variants the updated buffer is the new trade followed by the first
`capacity - 1` old entries in their original relative order. -/
theorem insert_prepends_and_truncates_tail :
    ∀ (t : Trade) (buf : List Trade),
      emitNewTrade t buf = t :: buf.take 29 ∧
      unshiftTrunc 100 t buf = t :: buf.take 99 :=
  fun t buf => ⟨unshiftTrunc_succ 29 t buf, unshiftTrunc_succ 99 t buf⟩

/-! ## Claim C5 -/

/-- C5: the history length never exceeds the capacity bound (30 in the
first variant, 100 in the second) after any single insert, any sequence of
inserts, or any backfill write, regardless of the starting buffer. -/
theorem history_length_le_capacity :
    (∀ (cap : ℕ) (t : Trade) (buf : List Trade),
        (unshiftTrunc cap t buf).length ≤ cap) ∧
    (∀ (cap : ℕ) (ts : List Trade) (buf : List Trade), buf.length ≤ cap →
        (ts.foldl (fun b t => unshiftTrunc cap t b) buf).length ≤ cap) ∧
    (∀ (queryResult : Except Unit (List SwapLog)) (now : String) (buf : List Trade),
        buf.length ≤ 100 → (fetchInitialTradesV2 queryResult now buf).length ≤ 100) ∧
    (∀ (queryResult : Except Unit (List SwapLog)) (now : String) (buf : List Trade),
        buf.length ≤ 100 → (fetchInitialTradesV2Intended queryResult now buf).length ≤ 100) ∧
    (∀ (logs : List SwapLog) (now : String) (buf : List Trade),
        (fetchInitialTrades (Except.ok logs) now buf).length ≤ 30) := by
  refine ⟨fun cap t buf => length_unshiftTrunc_le cap t buf, ?_, ?_, ?_, ?_⟩
  · intro cap ts
    induction ts with
    | nil => intro buf h; simpa using h
    | cons t ts ih =>
      intro buf _
      simp only [List.foldl_cons]
      exact ih _ (length_unshiftTrunc_le cap t buf)
  · rintro (⟨⟩ | logs) now buf h
    · simpa [fetchInitialTradesV2] using h
    · unfold fetchInitialTradesV2
      by_cases he : ((sortLogsDesc logs).take 30).isEmpty
      · simp only [he, if_pos, List.length_take]
        omega
      · simpa [he] using h
  · rintro (⟨⟩ | logs) now buf h
    · simpa [fetchInitialTradesV2Intended] using h
    · unfold fetchInitialTradesV2Intended
      simp only [List.length_take]
      omega
  · exact length_backfill_le_30

/-- Witness for C5 at concrete inputs: 31 inserts into the empty
capacity-30 buffer, and a failed backfill on the empty buffer. -/
theorem history_length_le_capacity_witness :
    ((List.replicate 31 sampleTrade).foldl
        (fun b t => unshiftTrunc 30 t b) []).length ≤ 30 ∧
    (fetchInitialTradesV2 (Except.error ()) "t" []).length ≤ 100 :=
  ⟨history_length_le_capacity.2.1 30 (List.replicate 31 sampleTrade) [] (by decide),
   history_length_le_capacity.2.2.1 (Except.error ()) "t" [] (by decide)⟩

/-! ## Claim C4 -/

/-- C4: direction classification of the live swap decoder.  If
`amount1Out > 0` the event classifies as a buy with traded amount
`amount1Out` and base amount `amount0In`; otherwise if `amount1In > 0` it
classifies as a sell with traded amount `amount1In` and base amount
`amount0Out`; otherwise no Trade is produced — and rejection is the
callback's early `return` (modelled as `none`), never a thrown error.
Any Trade the full decoder does produce carries exactly the classified
fields (scaled at 6 and 18 decimals respectively). -/
theorem swap_decoder_classification (now : String) (r : RawSwap) :
    (0 < r.amount1Out →
        classifySwap r = some (r.amount1Out, r.amount0In, "buy")) ∧
    (r.amount1Out = 0 → 0 < r.amount1In →
        classifySwap r = some (r.amount1In, r.amount0Out, "sell")) ∧
    (r.amount1Out = 0 → r.amount1In = 0 →
        classifySwap r = none ∧ decodeSwap now r = none) ∧
    (∀ t : Trade, decodeSwap now r = some t →
      (0 < r.amount1Out →
          t.action = "buy" ∧ t.amount = formatUnits r.amount1Out 6 ∧
          t.bnbAmount = formatUnits r.amount0In 18) ∧
      (r.amount1Out = 0 →
          t.action = "sell" ∧ t.amount = formatUnits r.amount1In 6 ∧
          t.bnbAmount = formatUnits r.amount0Out 18)) := by
  refine ⟨fun h => by simp [classifySwap, h], fun h0 h1 => by simp [classifySwap, h0, h1],
    fun h0 h1 => ?_, fun t ht => ?_⟩
  · have hc : classifySwap r = none := by simp [classifySwap, h0, h1]
    exact ⟨hc, by simp [decodeSwap, hc]⟩
  · constructor
    · intro h
      have hc : classifySwap r = some (r.amount1Out, r.amount0In, "buy") := by
        simp [classifySwap, h]
      rw [decodeSwap, hc] at ht
      simp only at ht
      split at ht
      · exact absurd ht (by simp)
      · obtain rfl := (Option.some_injective _ ht).symm
        exact ⟨rfl, rfl, rfl⟩
    · intro h0
      by_cases h1 : 0 < r.amount1In
      · have hc : classifySwap r = some (r.amount1In, r.amount0Out, "sell") := by
          simp [classifySwap, h0, h1]
        rw [decodeSwap, hc] at ht
        simp only at ht
        split at ht
        · exact absurd ht (by simp)
        · obtain rfl := (Option.some_injective _ ht).symm
          exact ⟨rfl, rfl, rfl⟩
      · have hc : classifySwap r = none := by
          simp [classifySwap, h0]
          omega
        rw [decodeSwap, hc] at ht
        exact absurd ht (by simp)

/-- Witness for C4 at a concrete raw event (`amount1Out = 5 > 0`). -/
theorem swap_decoder_classification_witness :
    (0 : ℕ) < 5 ∧ classifySwap sampleRawSwap = some (5, 7, "buy") :=
  ⟨by decide, (swap_decoder_classification "t" sampleRawSwap).1 (by decide)⟩

/-! ## Claim C1 -/

/-- An external-stream message with no `amountInToken` field, as the
handler's defaulting (`?? 0`) is exercised by. -/
def zeroAmountTx : ExternalTx :=
  { hash := some "0xext", wallet := some "0xw", amountInToken := none
    amountInChainCurrency := some 5, type := some "buy", tokenDetails := none }

/-- C1 counterexample: the external `transactions:new` handler inserts a
trade whose `amount` is `0` into the history (the handler defaults a
missing `amountInToken` to `0` and performs no zero check), so a trade
with `tokenAmount == 0` does enter history. -/
theorem external_stream_inserts_zero_amount_trade :
    (externalNew zeroAmountTx "t" []).map Trade.amount = [0] ∧
    (externalNew zeroAmountTx "t" []).length = 1 := by
  constructor <;> rfl

/-- C1 amended: only the live swap-decode path enforces the zero-amount
invariant — every trade the live decoder produces (and hence every trade
the live path inserts that was not already in the buffer) has
`amount > 0` and `bnbAmount > 0` strictly. -/
theorem live_path_rejects_zero_amounts :
    (∀ (now : String) (r : RawSwap) (t : Trade),
        decodeSwap now r = some t → 0 < t.amount ∧ 0 < t.bnbAmount) ∧
    (∀ (now : String) (r : RawSwap) (buf : List Trade) (t : Trade),
        t ∈ liveSwap now r buf → t ∈ buf ∨ (0 < t.amount ∧ 0 < t.bnbAmount)) := by
  have main : ∀ (now : String) (r : RawSwap) (t : Trade),
      decodeSwap now r = some t → 0 < t.amount ∧ 0 < t.bnbAmount := by
    intro now r t ht
    rw [decodeSwap] at ht
    rcases hc : classifySwap r with _ | ⟨a, b, act⟩
    · rw [hc] at ht; exact absurd ht (by simp)
    · rw [hc] at ht
      simp only at ht
      split at ht
      · exact absurd ht (by simp)
      · rename_i hcond
        push_neg at hcond
        obtain rfl := (Option.some_injective _ ht).symm
        exact ⟨(formatUnits_nonneg a 6).lt_of_ne (Ne.symm hcond.1),
               (formatUnits_nonneg b 18).lt_of_ne (Ne.symm hcond.2)⟩
  refine ⟨main, fun now r buf t hmem => ?_⟩
  rcases hd : decodeSwap now r with _ | td
  · simp only [liveSwap, hd] at hmem
    exact Or.inl hmem
  · simp only [liveSwap, hd] at hmem
    rw [show emitNewTrade td buf = td :: buf.take 29 from unshiftTrunc_succ 29 td buf] at hmem
    rcases List.mem_cons.mp hmem with rfl | hmem'
    · exact Or.inr (main now r t hd)
    · exact Or.inl (List.take_subset 29 buf hmem')

/-- Trade produced by the live decoder on `sampleRawSwap`. -/
def sampleDecoded : Trade :=
  { hash := "0xhash", time := "t", buyer := "0xsender", seller := "0xto"
    amount := 5 / 10 ^ 6, bnbAmount := 7 / 10 ^ 18, action := "buy"
    source := "ocicat", ticker := "", image := "" }

/-- Witness for the amended C1 at a concrete accepted decode. -/
theorem live_path_rejects_zero_amounts_witness :
    decodeSwap "t" sampleRawSwap = some sampleDecoded ∧
    0 < sampleDecoded.amount ∧ 0 < sampleDecoded.bnbAmount :=
  ⟨by norm_num [decodeSwap, classifySwap, sampleRawSwap, sampleDecoded, formatUnits],
   live_path_rejects_zero_amounts.1 "t" sampleRawSwap sampleDecoded
     (by norm_num [decodeSwap, classifySwap, sampleRawSwap, sampleDecoded, formatUnits])⟩

/-! ## Claim C9 -/

/-- C9: a rejected (debounced) attach leaves the registry unchanged — the
per-origin timestamp is only written after the check passes — so any
subsequent attempt is decided exactly as if the rejected attempt had never
happened (the lockout is measured from the last accepted attach and is
never extended by rejected retries). -/
theorem rejected_attach_leaves_registry_unchanged (reg : String → ℕ) (ip : String) (now : ℕ)
    (h : (processAttach reg ip now).1 = false) :
    (processAttach reg ip now).2 = reg ∧
    (∀ (ip₂ : String) (t₂ : ℕ),
        processAttach (processAttach reg ip now).2 ip₂ t₂ = processAttach reg ip₂ t₂) := by
  unfold processAttach at h ⊢
  by_cases hc : now - reg ip < 5000
  · simp [hc]
  · simp [hc] at h

/-- Witness for C9: origin `"b"` accepted at `t = 7000` and retrying at
`t = 8000` (inside the 5-second window) is rejected without a registry
write. -/
theorem rejected_attach_witness :
    (processAttach (runReg reg0 [⟨"b", 7000⟩]) "b" 8000).1 = false ∧
    (processAttach (runReg reg0 [⟨"b", 7000⟩]) "b" 8000).2 = runReg reg0 [⟨"b", 7000⟩] :=
  ⟨by decide,
   (rejected_attach_leaves_registry_unchanged (runReg reg0 [⟨"b", 7000⟩]) "b" 8000
      (by decide)).1⟩

/-! ## Claim C3 -/

/-- C3 (code bug): the `"close"` handler is registered only on the
*initial* provider's websocket; the reconnect path constructs a fresh
provider and reattaches the swap listener but registers no new `"close"`
handler.  Hence the first close does trigger one 3-second-delayed
reconnection with a fresh connection (generation 1), but a close of the
reconnected connection triggers nothing — the retry loop runs at most
once, not indefinitely. -/
theorem close_handler_not_reattached_on_reconnect :
    upstreamRun [0] =
      { currentGen := 1, closeHandlerGens := [0], reconnects := 1 } ∧
    upstreamRun [0, 1] =
      { currentGen := 1, closeHandlerGens := [0], reconnects := 1 } ∧
    reconnectDelayMs = 3000 := by
  refine ⟨?_, ?_, rfl⟩ <;> rfl

/-! ## Claim C7 -/

/-- Registry invariant tying the stored per-origin timestamp to the
accepted attaches that produced it: the stored value is `0` or the time of
some accepted attach from that origin, and it dominates the times of all
accepted attaches from that origin. -/
def RegInv (acc : List AttachEvent) (reg : String → ℕ) : Prop :=
  ∀ ip, (reg ip = 0 ∨ ∃ e ∈ acc, e.ip = ip ∧ e.time = reg ip) ∧
        (∀ e ∈ acc, e.ip = ip → e.time ≤ reg ip)

theorem regInv_step {acc : List AttachEvent} {reg : String → ℕ} (h : RegInv acc reg)
    (e : AttachEvent) :
    RegInv (acc ++ (if (processAttach reg e.ip e.time).1 then [e] else []))
      (processAttach reg e.ip e.time).2 := by
  unfold processAttach
  by_cases hc : e.time - reg e.ip < 5000
  · simpa [hc] using h
  · have hle : reg e.ip ≤ e.time := by omega
    simp only [hc, if_neg, if_true, Bool.true_eq_false, not_false_eq_true]
    intro ip
    refine ⟨?_, ?_⟩
    · by_cases hip : ip = e.ip
      · subst hip
        exact Or.inr ⟨e, List.mem_append_right _ (List.mem_singleton_self e), rfl, by simp⟩
      · rcases (h ip).1 with h0 | ⟨e', he', hip', ht'⟩
        · left; simpa [hip] using h0
        · right
          exact ⟨e', List.mem_append_left _ he', hip', by simpa [hip] using ht'⟩
    · intro e' he' hip'
      rcases List.mem_append.mp he' with he'acc | he'e
      · by_cases hip : ip = e.ip
        · subst hip
          have h2 := (h e.ip).2 e' he'acc hip'
          simp only [if_pos]
          omega
        · simpa [hip] using (h ip).2 e' he'acc hip'
      · rw [List.mem_singleton.mp he'e]
        rw [List.mem_singleton.mp he'e] at hip'
        subst hip'
        simp

theorem regInv_run : ∀ (es : List AttachEvent) (acc : List AttachEvent) (reg : String → ℕ),
    RegInv acc reg → RegInv (acc ++ acceptedIn reg es) (runReg reg es) := by
  intro es
  induction es with
  | nil => intro acc reg h; simpa [acceptedIn, runReg] using h
  | cons e es ih =>
    intro acc reg h
    have hnext := ih (acc ++ (if (processAttach reg e.ip e.time).1 then [e] else []))
      (processAttach reg e.ip e.time).2 (regInv_step h e)
    simp only [runReg, acceptedIn]
    simpa [List.append_assoc] using hnext

/-- C7: an attach from an origin is rejected iff some *accepted* attach
from the same origin occurred within the 5-second debounce window before
it; once 5 seconds have elapsed since the last accepted attach from that
origin, a new attach is accepted.  (`5000 ≤ e.time` holds for every real
run since `Date.now()` is milliseconds since 1970.)  A rejected attach is
`socket.disconnect(true)` before anything is sent — the channel receives
nothing (see the broadcaster model, where a rejected attach produces no
subscriber channel at all). -/
theorem attach_rejected_iff_within_debounce (pre : List AttachEvent) (e : AttachEvent)
    (h5 : 5000 ≤ e.time) :
    (processAttach (runReg reg0 pre) e.ip e.time).1 = false ↔
      ∃ e' ∈ acceptedIn reg0 pre, e'.ip = e.ip ∧ e.time - e'.time < 5000 := by
  have hinv : RegInv (acceptedIn reg0 pre) (runReg reg0 pre) := by
    have h0 : RegInv [] reg0 := fun ip => ⟨Or.inl rfl, by simp⟩
    simpa using regInv_run pre [] reg0 h0
  constructor
  · intro hrej
    have hc : e.time - runReg reg0 pre e.ip < 5000 := by
      by_contra hc
      simp [processAttach, hc] at hrej
    rcases (hinv e.ip).1 with h0 | ⟨e', he', hip', ht'⟩
    · rw [h0] at hc; omega
    · exact ⟨e', he', hip', by rw [ht']; exact hc⟩
  · rintro ⟨e', he', hip', ht'⟩
    have hle : e'.time ≤ runReg reg0 pre e.ip := (hinv e.ip).2 e' he' hip'
    have : e.time - runReg reg0 pre e.ip < 5000 := by omega
    simp [processAttach, this]

/-- Witness for C7: origin `"a"` accepted at `t = 5000`; its retry at
`t = 6000` (1 second later) is rejected. -/
theorem attach_rejected_iff_witness :
    5000 ≤ 6000 ∧
    ((processAttach (runReg reg0 [⟨"a", 5000⟩]) "a" 6000).1 = false ↔
      ∃ e' ∈ acceptedIn reg0 [⟨"a", 5000⟩], e'.ip = "a" ∧ 6000 - e'.time < 5000) :=
  ⟨by decide, attach_rejected_iff_within_debounce [⟨"a", 5000⟩] ⟨"a", 6000⟩ (by decide)⟩

/-! ## Claim C2 -/

theorem logDescLE_iff (x y : SwapLog) :
    logDescLE x y = true ↔
      y.blockNumber < x.blockNumber ∨
        (x.blockNumber = y.blockNumber ∧ y.transactionIndex ≤ x.transactionIndex) := by
  unfold logDescLE
  by_cases h : x.blockNumber = y.blockNumber
  · simp [h]
  · simp [h]
    omega

theorem logDescLE_trans : ∀ a b c : SwapLog,
    logDescLE a b = true → logDescLE b c = true → logDescLE a c = true := by
  intro a b c hab hbc
  rw [logDescLE_iff] at hab hbc ⊢
  omega

theorem logDescLE_total : ∀ a b : SwapLog,
    (logDescLE a b || logDescLE b a) = true := by
  intro a b
  rw [Bool.or_eq_true, logDescLE_iff, logDescLE_iff]
  omega

/-- The raw sell event of `sellLog`: 5 raw token units in, 7 raw wei out,
nothing on the other legs. -/
def sellLog : SwapLog :=
  { blockNumber := 1, transactionIndex := 0, transactionHash := "0xc2", sender := "0xs"
    amount0In := 0, amount1In := 5, amount0Out := 7, amount1Out := 0, toAddr := "0xd" }

/-- C2 counterexample: backfill does *not* decode with the live
`EventDecoder` logic.  On a sell event (`amount1Out = 0`, `amount1In > 0`)
the backfill mapper writes a trade with `amount = 0` and `bnbAmount = 0`
into the history (it always reads `amount1Out`/`amount0In` and applies no
zero-amount rejection), while the live decoder produces a sell trade with
`amount = 5·10⁻⁶` from the same raw event — the two decoders disagree. -/
theorem backfill_decoder_differs_from_live :
    fetchInitialTrades (Except.ok [sellLog]) "t" [] = [decodeBackfillLog "t" sellLog] ∧
    (decodeBackfillLog "t" sellLog).amount = 0 ∧
    (decodeBackfillLog "t" sellLog).bnbAmount = 0 ∧
    (decodeBackfillLog "t" sellLog).action = "sell" ∧
    (decodeSwap "t" (rawOfLog sellLog)).map Trade.amount = some (5 / 10 ^ 6) ∧
    decodeSwap "t" (rawOfLog sellLog) ≠ some (decodeBackfillLog "t" sellLog) := by
  refine ⟨?_, ?_, ?_, rfl, ?_, ?_⟩
  · rw [show fetchInitialTrades (Except.ok [sellLog]) "t" []
          = ((sortLogsDesc [sellLog]).take 30).map (decodeBackfillLog "t") from rfl,
       show sortLogsDesc [sellLog] = [sellLog] from List.mergeSort_singleton sellLog]
    rfl
  · norm_num [decodeBackfillLog, sellLog, formatUnits]
  · norm_num [decodeBackfillLog, sellLog, formatUnits]
  · norm_num [decodeSwap, classifySwap, rawOfLog, sellLog, formatUnits]
  · norm_num [decodeSwap, classifySwap, rawOfLog, sellLog, decodeBackfillLog, formatUnits,
      Trade.mk.injEq]

/-- C2 amended: backfill queries the most-recent-500-block window, sorts
the logs by block number descending then transaction index descending,
takes the first 30, maps each through its own simplified mapper
(`decodeBackfillLog` — token amount always from `amount1Out`, base amount
always from `amount0In`, buy iff `amount1Out > 0`, no zero-amount
rejection, no reuse of the live decoder), and replaces the history with
the result; a failed query leaves the history unchanged. -/
theorem backfill_sorts_truncates_replaces :
    ∀ (logs : List SwapLog) (now : String) (buf : List Trade),
      fetchInitialTrades (Except.ok logs) now buf
        = ((sortLogsDesc logs).take 30).map (decodeBackfillLog now) ∧
      (sortLogsDesc logs).Perm logs ∧
      List.Pairwise (fun a b => logDescLE a b = true) (sortLogsDesc logs) ∧
      (fetchInitialTrades (Except.ok logs) now buf).length ≤ 30 ∧
      fetchInitialTrades (Except.error ()) now buf = buf ∧
      (∀ current : ℕ, backfillFromBlock current = current - 500) :=
  fun logs now buf =>
    ⟨rfl, List.mergeSort_perm logs logDescLE,
     List.sorted_mergeSort logDescLE_trans logDescLE_total logs,
     length_backfill_le_30 logs now buf, rfl, fun _ => rfl⟩

/-! ## Claim C10 -/

/-- A buy event in the backfill window, used to exercise the
capacity-100 variant's merge. -/
def buyLog : SwapLog :=
  { blockNumber := 2, transactionIndex := 1, transactionHash := "0xc10", sender := "0xs2"
    amount0In := 11, amount1In := 0, amount0Out := 0, amount1Out := 13, toAddr := "0xd2" }

/-- C10 (code bug): the capacity-100 variant's `fetchInitialTrades` maps
the sorted logs with a callback that reads `initialTrades.length` inside
the initializer of `const initialTrades` itself.  Whenever the query
returns at least one log the first callback throws a `ReferenceError`
(temporal-dead-zone access), the `catch` swallows it, and the history is
left unchanged — no historical trade is ever prepended.  The intended
merge (the final `tradeBuffer = [...initialTrades, ...tradeBuffer]
.slice(0, 100)`) would have prepended the decoded log ahead of the
pre-existing entry.  A failed query also leaves the history unchanged. -/
theorem backfillV2_never_merges :
    fetchInitialTradesV2 (Except.ok [buyLog]) "t" [sampleTrade] = [sampleTrade] ∧
    fetchInitialTradesV2Intended (Except.ok [buyLog]) "t" [sampleTrade]
      = [decodeBackfillLog "t" buyLog, sampleTrade] ∧
    fetchInitialTradesV2 (Except.error ()) "t" [sampleTrade] = [sampleTrade] := by
  have hsort : sortLogsDesc [buyLog] = [buyLog] := List.mergeSort_singleton buyLog
  refine ⟨?_, ?_, rfl⟩
  · rw [show fetchInitialTradesV2 (Except.ok [buyLog]) "t" [sampleTrade]
          = (if ((sortLogsDesc [buyLog]).take 30).isEmpty then
              ((((sortLogsDesc [buyLog]).take 30).map (decodeBackfillLog "t"))
                ++ [sampleTrade]).take 100
            else [sampleTrade]) from rfl,
       hsort]
    rfl
  · rw [show fetchInitialTradesV2Intended (Except.ok [buyLog]) "t" [sampleTrade]
          = ((((sortLogsDesc [buyLog]).take 30).map (decodeBackfillLog "t"))
              ++ [sampleTrade]).take 100 from rfl,
       hsort]
    rfl

/-! ## Claim C8 -/

theorem snapCount_append (l₁ l₂ : List Msg) :
    snapCount (l₁ ++ l₂) = snapCount l₁ + snapCount l₂ := by
  simp [snapCount, List.filter_append]

/-- C8 counterexample: a subscriber attaches while the history is empty,
so the connection handler suspends at `await fetchInitialTrades()`.  A
trade published during that wait is broadcast to the already-connected
socket *before* the handler resumes and emits the snapshot: the socket's
first message is a live trade from a publish later than the attach, and
the snapshot (which also contains that trade) arrives second. -/
theorem live_message_can_precede_snapshot :
    (sysRun [Ev.attach 0 "a" 5000, Ev.publish sampleTrade,
        Ev.finishAttach 0 (Except.error ()) "t"]).socks.map Socket.log
      = [[Msg.live sampleTrade, Msg.snapshot [sampleTrade]]] := by
  rfl

/-- Per-socket message-log invariant: a socket whose attach handler is
still suspended has received no snapshot yet (only live messages); a
socket whose handler completed has received exactly one snapshot; and a
socket that attached atomically (history non-empty at attach, no `await`)
has the snapshot as its very first message, followed only by live
messages. -/
def SockOk (sk : Socket) : Prop :=
  (sk.pending = true → snapCount sk.log = 0 ∧ sk.atomic = false) ∧
  (sk.pending = false → snapCount sk.log = 1) ∧
  (sk.atomic = true →
    ∃ b rest, sk.log = Msg.snapshot b :: rest ∧ snapCount rest = 0)

theorem sysStep_sockOk (s : SysState) (hs : ∀ sk ∈ s.socks, SockOk sk) (ev : Ev) :
    ∀ sk ∈ (sysStep s ev).socks, SockOk sk := by
  cases ev with
  | attach sid ip time =>
    intro sk hsk
    simp only [sysStep] at hsk
    by_cases hacc : (processAttach s.reg ip time).1 = true
    · rw [if_pos hacc] at hsk
      by_cases hemp : s.buffer.isEmpty = true
      · rw [if_pos hemp] at hsk
        rcases List.mem_cons.mp hsk with rfl | h
        · exact ⟨fun _ => ⟨rfl, rfl⟩, fun h => by simp at h, fun h => by simp at h⟩
        · exact hs sk h
      · rw [if_neg hemp] at hsk
        rcases List.mem_cons.mp hsk with rfl | h
        · exact ⟨fun h => by simp at h, fun _ => rfl,
            fun _ => ⟨s.buffer, [], rfl, rfl⟩⟩
        · exact hs sk h
    · rw [if_neg hacc] at hsk
      exact hs sk hsk
  | finishAttach sid res now =>
    intro sk hsk
    simp only [sysStep, List.mem_map] at hsk
    obtain ⟨sk₀, hsk₀, rfl⟩ := hsk
    have h₀ := hs sk₀ hsk₀
    by_cases hcond : sk₀.sid = sid ∧ sk₀.pending = true
    · rw [if_pos hcond]
      obtain ⟨hc0, hatom⟩ := h₀.1 hcond.2
      refine ⟨fun h => by simp at h, fun _ => ?_, fun h => ?_⟩
      · rw [snapCount_append, hc0]
        rfl
      · rw [hatom] at h
        simp at h
    · rw [if_neg hcond]
      exact h₀
  | publish t =>
    intro sk hsk
    simp only [sysStep, List.mem_map] at hsk
    obtain ⟨sk₀, hsk₀, rfl⟩ := hsk
    have h₀ := hs sk₀ hsk₀
    refine ⟨fun hp => ⟨?_, (h₀.1 hp).2⟩, fun hp => ?_, fun ha => ?_⟩
    · rw [snapCount_append, (h₀.1 hp).1]
      rfl
    · rw [snapCount_append, h₀.2.1 hp]
      rfl
    · obtain ⟨b, rest, hl, hr⟩ := h₀.2.2 ha
      refine ⟨b, rest ++ [Msg.live t], by simp [hl], ?_⟩
      rw [snapCount_append, hr]
      rfl
  | detach sid =>
    intro sk hsk
    simp only [sysStep] at hsk
    exact hs sk (List.mem_of_mem_filter hsk)

/-- C8 amended: in every reachable state, every subscriber channel whose
attach handler has completed has received exactly one history-snapshot
message; when the history was non-empty at attach (so the handler ran
atomically, without awaiting backfill), that snapshot is the channel's
first message and every other message is a single live trade.  A channel
still awaiting backfill has received only live messages, and those
publishes are also the ones a pending channel sees before its snapshot. -/
theorem snapshot_exactly_once_per_attach :
    ∀ (evs : List Ev), ∀ sk ∈ (sysRun evs).socks, SockOk sk := by
  intro evs
  suffices h : ∀ (s : SysState), (∀ sk ∈ s.socks, SockOk sk) →
      ∀ sk ∈ (evs.foldl sysStep s).socks, SockOk sk by
    exact h sysInit (by simp [sysInit])
  induction evs with
  | nil => intro s hs; simpa using hs
  | cons ev evs ih =>
    intro s hs
    simp only [List.foldl_cons]
    exact ih (sysStep s ev) (sysStep_sockOk s hs ev)

/-- Witness for the amended C8: a publish, then an atomic attach (history
non-empty) — the resulting channel's log is exactly one snapshot. -/
theorem snapshot_exactly_once_witness :
    (⟨1, "b", [Msg.snapshot [sampleTrade]], false, true⟩ : Socket) ∈
      (sysRun [Ev.publish sampleTrade, Ev.attach 1 "b" 6000]).socks ∧
    SockOk ⟨1, "b", [Msg.snapshot [sampleTrade]], false, true⟩ :=
  ⟨by decide,
   snapshot_exactly_once_per_attach [Ev.publish sampleTrade, Ev.attach 1 "b" 6000]
     ⟨1, "b", [Msg.snapshot [sampleTrade]], false, true⟩ (by decide)⟩

end SocketServer
